import Mathlib

/-!
Verification of the Task Management API's Task Service handlers.

A shallow embedding of the Go program `src/main.go` (package `main`): a CRUD
HTTP service over a single `MANAGEMENT` table in a relational store.  The five
handlers (`createTask`, `retrieveTask`, `updateTask`, `deleteTask`,
`listAllTasks`) are modelled as pure functions from a store state and the
decoded request data to the new store state and the JSON response.

The relational store (SQLite) is external to the repository and is modelled at
its interface, per the specification ("the relational engine itself [is]
treated as a black-box store offering parameterized exec/query"):
* the table is a list of rows in insertion order plus the auto-increment
  counter (`AUTOINCREMENT`: ids start at 1, grow by one per insert, and are
  never reused after a delete);
* `WHERE id = ?` with a textual parameter compared against the INTEGER `id`
  column applies SQLite's NUMERIC affinity: a well-formed numeric literal
  (optionally signed, real, with exponent, whitespace-padded) converts to
  its numeric value, compared numerically with the integer ids (modelled
  with exact arithmetic); any other text compares as TEXT and matches no
  INTEGER id;
* an exec/query call may fail for reasons outside the program (connection,
  disk); each handler that the code lets observe such a failure takes an
  explicit flag selecting the failure branch of its `if err != nil` check.

`time.Parse("2006-01-02", s)` of Go's standard library is modelled faithfully:
the layout consumes exactly four year digits, a literal dash, exactly two
month digits, a literal dash and exactly two day digits, must consume the
whole input, and then range-checks the month (1–12) and the day
(1–`daysIn month year`, with Gregorian leap years).  `Format("2006-01-02")`
zero-pads the parsed components back.
-/

namespace TaskApi

/-- The `Task` struct of `src/main.go` (lines 14–20): JSON fields
`id`, `title`, `description`, `due_date`, `status`. -/
structure Task where
  id : Int
  title : String
  description : String
  dueDate : String
  status : String
deriving DecidableEq, Repr

/-- The persistent store: the `MANAGEMENT` table created at startup
(lines 34–42), as its ordered rows plus the `AUTOINCREMENT` counter for the
INTEGER PRIMARY KEY column `id`. -/
structure Store where
  rows : List Task
  nextId : Int
deriving DecidableEq, Repr

/-- The store of a fresh process: empty table, ids will start at 1. -/
def emptyStore : Store := { rows := [], nextId := 1 }

/-- The JSON responses a handler can produce, tagged by their HTTP status:
`created` = 201 with a Task body, `ok` = 200 with a Task body, `okList` = 200
with a sequence of Tasks, `message` = 200 with `{"message": ...}`,
`badRequest` = 400, `notFound` = 404, `serverError` = 500, each with their
`{"error": ...}` string. -/
inductive Response where
  | created (t : Task)
  | ok (t : Task)
  | okList (ts : List Task)
  | message (m : String)
  | badRequest (e : String)
  | notFound (e : String)
  | serverError (e : String)
deriving DecidableEq, Repr

/-- The specification's error taxonomy (§7): `InvalidInput` → 400,
`NotFound` → 404, `StoreFailure` → 500. -/
inductive ErrorKind where
  | InvalidInput
  | NotFound
  | StoreFailure
deriving DecidableEq, Repr

/-- Which error kind a response carries, mapping HTTP statuses back to the
specification's taxonomy; success responses carry none. -/
def Response.errorKind : Response → Option ErrorKind
  | .badRequest _ => some .InvalidInput
  | .notFound _ => some .NotFound
  | .serverError _ => some .StoreFailure
  | _ => none

/-- ASCII decimal digit test: Go's numeric layout elements accept exactly
the bytes `'0'` (48) through `'9'` (57). -/
def isDigitChar (c : Char) : Bool := 48 ≤ c.toNat && c.toNat ≤ 57

/-- Numeric value of a decimal digit character. -/
def dval (c : Char) : Nat := c.toNat - 48

/-- The decimal digit character for `n < 10`. -/
def digitChar (n : Nat) : Char := Char.ofNat (48 + n)

/-- Leap year as in Go's `time.isLeap`. -/
def isLeap (y : Nat) : Bool := y % 4 == 0 && (y % 100 != 0 || y % 400 == 0)

/-- Days in a month as in Go's `time.daysIn`. -/
def daysIn (m y : Nat) : Nat :=
  if m == 2 then (if isLeap y then 29 else 28)
  else if m == 4 || m == 6 || m == 9 || m == 11 then 30
  else 31

/-- Value of the four year digits. -/
def yearVal (a b c e : Char) : Nat :=
  1000 * dval a + 100 * dval b + 10 * dval c + dval e

/-- Value of a two-digit month or day. -/
def twoVal (a b : Char) : Nat := 10 * dval a + dval b

/-- Go's `time.Parse("2006-01-02", s)` (used at line 79): succeeds exactly on
ten-character inputs `YYYY-MM-DD` with four year digits, two month digits and
two day digits, month in 1–12 and day within the month's length; returns the
parsed (year, month, day). -/
def parseYYYYMMDD (s : String) : Option (Nat × Nat × Nat) :=
  match s.data with
  | [y1, y2, y3, y4, h1, m1, m2, h2, d1, d2] =>
    if isDigitChar y1 && isDigitChar y2 && isDigitChar y3 && isDigitChar y4 &&
       h1 == '-' && isDigitChar m1 && isDigitChar m2 && h2 == '-' &&
       isDigitChar d1 && isDigitChar d2 then
      if 1 ≤ twoVal m1 m2 && twoVal m1 m2 ≤ 12 && 1 ≤ twoVal d1 d2 &&
         twoVal d1 d2 ≤ daysIn (twoVal m1 m2) (yearVal y1 y2 y3 y4) then
        some (yearVal y1 y2 y3 y4, twoVal m1 m2, twoVal d1 d2)
      else none
    else none
  | _ => none

/-- Go's `dueDate.Format("2006-01-02")` (line 86): zero-padded
`YYYY-MM-DD` rendering of the parsed components. -/
def formatYYYYMMDD (y m d : Nat) : String :=
  ⟨[digitChar (y / 1000 % 10), digitChar (y / 100 % 10),
    digitChar (y / 10 % 10), digitChar (y % 10), '-',
    digitChar (m / 10 % 10), digitChar (m % 10), '-',
    digitChar (d / 10 % 10), digitChar (d % 10)]⟩

/-- A due-date string that parses as `YYYY-MM-DD` and is in canonical textual
form (re-formatting the parse yields the string back). -/
def validDueDate (s : String) : Bool :=
  match parseYYYYMMDD s with
  | some (y, m, d) => formatYYYYMMDD y m d == s
  | none => false

/-- Decimal value of a digit string. -/
def digitsVal (l : List Char) : Nat := l.foldl (fun a c => 10 * a + dval c) 0

/-- Whitespace as in SQLite's `sqlite3Isspace`: space, tab, newline,
vertical tab, form feed, carriage return. -/
def isSpaceChar (c : Char) : Bool :=
  c == ' ' || c == '\t' || c == '\n' || c == '\x0b' || c == '\x0c' || c == '\r'

/-- Tail of SQLite's numeric-literal scan after an `e`/`E`: an optional sign
and at least one exponent digit, then only trailing whitespace may remain.
Returns the literal's pieces (sign, mantissa digits value, number of
fraction digits, exponent). -/
def sqliteExpTail (neg : Bool) (mant fracLen : Nat) (rest : List Char) :
    Option (Bool × Nat × Nat × Int) :=
  let es : Bool × List Char :=
    match rest with
    | '-' :: r => (true, r)
    | '+' :: r => (false, r)
    | _ => (false, rest)
  let ed := es.2.span isDigitChar
  if ed.1 = [] then none
  else if ed.2.dropWhile isSpaceChar = [] then
    some (neg, mant, fracLen,
      if es.1 then -(digitsVal ed.1 : Int) else (digitsVal ed.1 : Int))
  else none

/-- SQLite's scan of a well-formed numeric literal (`sqlite3AtoF`, used by
the NUMERIC-affinity conversion): optional leading whitespace, an optional
sign, mantissa digits with an optional decimal point (at least one digit in
total), an optional exponent with at least one digit, optional trailing
whitespace, and nothing else.  Returns (negative?, mantissa value, number
of fraction digits, exponent), or `none` when the text is not a number. -/
def sqliteNumParts (s : String) : Option (Bool × Nat × Nat × Int) :=
  let l0 := s.data.dropWhile isSpaceChar
  let sgn : Bool × List Char :=
    match l0 with
    | '-' :: rest => (true, rest)
    | '+' :: rest => (false, rest)
    | _ => (false, l0)
  let ip := sgn.2.span isDigitChar
  let fp : List Char × List Char :=
    match ip.2 with
    | '.' :: rest => rest.span isDigitChar
    | _ => ([], ip.2)
  if ip.1 = [] ∧ fp.1 = [] then none
  else
    let mant := digitsVal (ip.1 ++ fp.1)
    let fracLen := fp.1.length
    match fp.2 with
    | 'e' :: rest => sqliteExpTail sgn.1 mant fracLen rest
    | 'E' :: rest => sqliteExpTail sgn.1 mant fracLen rest
    | rest =>
      if rest.dropWhile isSpaceChar = [] then some (sgn.1, mant, fracLen, 0)
      else none

/-- How the black-box store evaluates `id = ?` with a textual parameter
against the INTEGER-affinity `id` column: NUMERIC affinity converts the
text to its numeric value exactly when it is a well-formed numeric literal
(optionally signed, real, with exponent, whitespace-padded), and the value
is compared numerically with the integer keys; any other text compares as
TEXT and equals no INTEGER.  Because the persisted ids are always integers,
the observable outcome is fully described by the exact integer value of the
literal when it has one (`some k`), and `none` both for non-numeric text
and for numeric values that are not integers — either way no row matches.
The value is computed with exact arithmetic; IEEE-754 double rounding of
REAL conversions (observable only for literals needing more precision than
a double carries) is idealised away. -/
def keyOfString (s : String) : Option Int :=
  match sqliteNumParts s with
  | none => none
  | some (neg, mant, fracLen, exp) =>
    let e : Int := exp - fracLen
    let mag : Option Nat :=
      if 0 ≤ e then some (mant * 10 ^ e.toNat)
      else if mant % 10 ^ (-e).toNat == 0 then some (mant / 10 ^ (-e).toNat)
      else none
    match mag with
    | none => none
    | some n => some (if neg then -(n : Int) else (n : Int))

/-- The lookup `SELECT ... FROM MANAGEMENT WHERE id = ?` with the raw path parameter:
the first row whose `id` matches the parameter, if any. -/
def findTask (st : Store) (idStr : String) : Option Task :=
  match keyOfString idStr with
  | none => none
  | some k => st.rows.find? (fun t => t.id == k)

/-- The effect of the UPDATE's SET list on one row: all four mutable columns
take the payload's values; the `id` column is not in the SET list. -/
def overwrite (p t : Task) : Task :=
  { id := t.id, title := p.title, description := p.description,
    dueDate := p.dueDate, status := p.status }

/-- The statement `UPDATE MANAGEMENT SET title = ?, description = ?,
due_date = ?, status = ? WHERE id = ?` (lines 149–153): every row matching the parameter
gets all four mutable fields overwritten; its `id` column is unchanged. -/
def execUpdate (st : Store) (idStr : String) (p : Task) : Store :=
  match keyOfString idStr with
  | none => st
  | some k =>
    { st with rows := st.rows.map (fun t =>
        if t.id == k then overwrite p t else t) }

/-- Handler `createTask` (lines 70–102).  The payload is the JSON body after a
successful `ShouldBindJSON` (a structurally malformed body is answered 400
"Invalid request payload" before any of this runs).  The handler parses
`due_date`, rejecting with 400 "Invalid due_date format" on failure; then
formats the parsed date back into the payload; then executes the INSERT
(which does not mention `id`), a store failure becoming 500 "Failed to create
task"; finally it answers 201 with the payload carrying the
`LastInsertId`-assigned id. -/
def createTask (st : Store) (payload : Task) (execFails : Bool) :
    Store × Response :=
  match parseYYYYMMDD payload.dueDate with
  | none => (st, .badRequest "Invalid due_date format")
  | some (y, m, d) =>
    if execFails then (st, .serverError "Failed to create task")
    else
      let newTask : Task :=
        { id := st.nextId, title := payload.title,
          description := payload.description,
          dueDate := formatYYYYMMDD y m d, status := payload.status }
      ({ rows := st.rows ++ [newTask], nextId := st.nextId + 1 },
       .created newTask)

/-- Handler `retrieveTask` (lines 104–123): single-row lookup by the raw path
parameter; any `QueryRow ... Scan` error — in particular `sql.ErrNoRows` when
no row matches — is answered 404 "Task not found"; otherwise 200 with the
scanned row. -/
def retrieveTask (st : Store) (idStr : String) : Store × Response :=
  match findTask st idStr with
  | none => (st, .notFound "Task not found")
  | some t => (st, .ok t)

/-- Handler `updateTask` (lines 127–172).  The payload is the body after a successful
`ShouldBindJSON` (malformed → 400 "Invalid request payload" first).  The
handler read-checks existence of the row (failure → 404 "Task not found"),
then executes the UPDATE — note: without any due_date validation — (store
failure → 500 "Failed to update task"), then re-reads the row and answers 200
with the re-read result (re-read failure → 500 "Failed to retrieve updated
task details"). -/
def updateTask (st : Store) (idStr : String) (payload : Task)
    (execFails : Bool) : Store × Response :=
  match findTask st idStr with
  | none => (st, .notFound "Task not found")
  | some _ =>
    if execFails then (st, .serverError "Failed to update task")
    else
      let st2 := execUpdate st idStr payload
      match findTask st2 idStr with
      | none => (st2, .serverError "Failed to retrieve updated task details")
      | some t => (st2, .ok t)

/-- Handler `deleteTask` (lines 174–193): executes
`DELETE FROM MANAGEMENT WHERE id = ?` with the raw path parameter (store
failure → 500 "Failed to delete task"), then inspects `RowsAffected`:
zero → 404 "Task not found", otherwise 200 with a confirmation message. -/
def deleteTask (st : Store) (idStr : String) (execFails : Bool) :
    Store × Response :=
  if execFails then (st, .serverError "Failed to delete task")
  else
    let rowsAffected :=
      match keyOfString idStr with
      | none => 0
      | some k => st.rows.countP (fun t => t.id == k)
    let st2 :=
      match keyOfString idStr with
      | none => st
      | some k => { st with rows := st.rows.filter (fun t => !(t.id == k)) }
    if rowsAffected == 0 then (st2, .notFound "Task not found")
    else (st2, .message "Task deleted successfully")

/-- Handler `listAllTasks` (lines 195–222): full-table scan (query or row-scan
failure → 500), then 200 with the collected rows if there are more than zero,
else 200 with the informational `{"message": "No tasks found"}` payload. -/
def listAllTasks (st : Store) (queryFails : Bool) : Store × Response :=
  if queryFails then (st, .serverError "Failed to retrieve tasks")
  else if st.rows.length > 0 then (st, .okList st.rows)
  else (st, .message "No tasks found")

/-- Every persisted row has a valid, canonical `due_date`. -/
def DateInv (st : Store) : Prop :=
  ∀ t ∈ st.rows, validDueDate t.dueDate = true

/-- The store states reachable through the handlers: the auto-increment
counter is positive and strictly above every persisted id (so ids are
positive, and a freshly assigned id collides with no existing row). -/
def WFStore (st : Store) : Prop :=
  0 < st.nextId ∧ ∀ t ∈ st.rows, 0 < t.id ∧ t.id < st.nextId

/-- Creating a sequence of tasks, threading the store (all inserts succeed). -/
def createAll (st : Store) (ps : List Task) : Store :=
  ps.foldl (fun s p => (createTask s p false).1) st

/-! ## Helper lemmas -/

/-- A digit character has value below ten. -/
theorem dval_lt_ten (c : Char) (h : isDigitChar c = true) : dval c < 10 := by
  simp only [isDigitChar, Bool.and_eq_true, decide_eq_true_eq] at h
  simp only [dval]
  omega

/-- Rendering the value of a digit character gives the character back. -/
theorem digitChar_dval (c : Char) (h : isDigitChar c = true) :
    digitChar (dval c) = c := by
  simp only [isDigitChar, Bool.and_eq_true, decide_eq_true_eq] at h
  have he : 48 + dval c = c.toNat := by simp only [dval]; omega
  rw [digitChar, he, Char.ofNat_toNat]

/-- A string accepted by the date parser is reproduced exactly by the
formatter: valid inputs are already in canonical zero-padded form. -/
theorem format_of_parse (s : String) (y m d : Nat)
    (h : parseYYYYMMDD s = some (y, m, d)) : formatYYYYMMDD y m d = s := by
  unfold parseYYYYMMDD at h
  split at h
  case _ y1 y2 y3 y4 h1 m1 m2 h2 d1 d2 heq =>
    split at h
    case _ hdig =>
      split at h
      case _ hrange =>
        simp only [Option.some.injEq, Prod.mk.injEq] at h
        obtain ⟨hy, hm, hd⟩ := h
        simp only [Bool.and_eq_true, beq_iff_eq] at hdig
        obtain ⟨⟨⟨⟨⟨⟨⟨⟨⟨hy1, hy2⟩, hy3⟩, hy4⟩, hh1⟩, hm1⟩, hm2⟩, hh2⟩, hd1⟩,
          hd2⟩ := hdig
        have b1 := dval_lt_ten y1 hy1
        have b2 := dval_lt_ten y2 hy2
        have b3 := dval_lt_ten y3 hy3
        have b4 := dval_lt_ten y4 hy4
        have b5 := dval_lt_ten m1 hm1
        have b6 := dval_lt_ten m2 hm2
        have b7 := dval_lt_ten d1 hd1
        have b8 := dval_lt_ten d2 hd2
        have e1 : digitChar (y / 1000 % 10) = y1 := by
          have : y / 1000 % 10 = dval y1 := by
            subst hy; simp only [yearVal]; omega
          rw [this, digitChar_dval y1 hy1]
        have e2 : digitChar (y / 100 % 10) = y2 := by
          have : y / 100 % 10 = dval y2 := by
            subst hy; simp only [yearVal]; omega
          rw [this, digitChar_dval y2 hy2]
        have e3 : digitChar (y / 10 % 10) = y3 := by
          have : y / 10 % 10 = dval y3 := by
            subst hy; simp only [yearVal]; omega
          rw [this, digitChar_dval y3 hy3]
        have e4 : digitChar (y % 10) = y4 := by
          have : y % 10 = dval y4 := by
            subst hy; simp only [yearVal]; omega
          rw [this, digitChar_dval y4 hy4]
        have e5 : digitChar (m / 10 % 10) = m1 := by
          have : m / 10 % 10 = dval m1 := by
            subst hm; simp only [twoVal]; omega
          rw [this, digitChar_dval m1 hm1]
        have e6 : digitChar (m % 10) = m2 := by
          have : m % 10 = dval m2 := by
            subst hm; simp only [twoVal]; omega
          rw [this, digitChar_dval m2 hm2]
        have e7 : digitChar (d / 10 % 10) = d1 := by
          have : d / 10 % 10 = dval d1 := by
            subst hd; simp only [twoVal]; omega
          rw [this, digitChar_dval d1 hd1]
        have e8 : digitChar (d % 10) = d2 := by
          have : d % 10 = dval d2 := by
            subst hd; simp only [twoVal]; omega
          rw [this, digitChar_dval d2 hd2]
        apply String.ext
        rw [heq, formatYYYYMMDD]
        simp only [e1, e2, e3, e4, e5, e6, e7, e8, hh1, hh2]
      case _ => exact absurd h (by simp)
    case _ => exact absurd h (by simp)
  case _ => exact absurd h (by simp)

/-- Any string the parser accepts is a valid canonical due date. -/
theorem validDueDate_of_parse (s : String) (y m d : Nat)
    (h : parseYYYYMMDD s = some (y, m, d)) : validDueDate s = true := by
  simp only [validDueDate, h, beq_iff_eq]
  exact format_of_parse s y m d h

/-- Searching the rows after the UPDATE's row map: the first match is the
overwritten first match of the original rows. -/
theorem find?_map_overwrite (k : Int) (p : Task) (l : List Task) :
    (l.map (fun t => if t.id == k then overwrite p t else t)).find?
        (fun t => t.id == k) =
      (l.find? (fun t => t.id == k)).map (overwrite p) := by
  induction l with
  | nil => rfl
  | cons t l ih =>
    cases hb : (t.id == k) with
    | true =>
      have hb2 : ((overwrite p t).id == k) = true := hb
      simp only [List.map_cons, List.find?_cons, hb, hb2, if_true,
        Option.map_some]
      rfl
    | false =>
      simp only [List.map_cons, List.find?_cons, hb, Bool.false_eq_true,
        if_false, ih]

/-- A successful lookup means the parameter converted to the found row's
key, and the row is persisted. -/
theorem findTask_key (st : Store) (idStr : String) (t0 : Task)
    (h : findTask st idStr = some t0) :
    keyOfString idStr = some t0.id ∧ t0 ∈ st.rows := by
  unfold findTask at h
  cases hk : keyOfString idStr with
  | none =>
    simp only [hk] at h
    exact Option.noConfusion h
  | some k =>
    simp only [hk] at h
    have hp := List.find?_some h
    have hmem : t0 ∈ st.rows := List.mem_of_find?_eq_some h
    simp only [beq_iff_eq] at hp
    exact ⟨by rw [hp], hmem⟩

/-- Looking the row up again after the UPDATE finds the overwritten row. -/
theorem findTask_execUpdate (st : Store) (idStr : String) (p : Task)
    (t0 : Task) (h : findTask st idStr = some t0) :
    findTask (execUpdate st idStr p) idStr = some (overwrite p t0) := by
  unfold findTask at h ⊢
  cases hk : keyOfString idStr with
  | none =>
    simp only [hk] at h
    exact Option.noConfusion h
  | some k =>
    simp only [hk] at h
    simp only [execUpdate, hk]
    show (st.rows.map fun t => if t.id == k then overwrite p t else t).find?
        (fun t => t.id == k) = some (overwrite p t0)
    rw [find?_map_overwrite, h]
    rfl

/-- If no row matches, the DELETE's row count is zero. -/
theorem countP_of_no_match (k : Int) (l : List Task)
    (h : l.find? (fun t => t.id == k) = none) :
    l.countP (fun t => t.id == k) = 0 :=
  List.countP_eq_zero.mpr (List.find?_eq_none.mp h)

/-- If no row matches, the DELETE leaves the rows untouched. -/
theorem filter_of_no_match (k : Int) (l : List Task)
    (h : l.find? (fun t => t.id == k) = none) :
    l.filter (fun t => !(t.id == k)) = l := by
  rw [List.filter_eq_self]
  intro a ha
  have hna := List.find?_eq_none.mp h a ha
  simp only [Bool.not_eq_true] at hna
  simp [hna]

/-- If some row matches, the DELETE's row count is nonzero. -/
theorem countP_ne_zero_of_find? (k : Int) (l : List Task) (t0 : Task)
    (h : l.find? (fun t => t.id == k) = some t0) :
    l.countP (fun t => t.id == k) ≠ 0 := by
  intro hc
  have hp := List.find?_some h
  exact List.countP_eq_zero.mp hc t0 (List.mem_of_find?_eq_some h) hp

/-- After the DELETE removed the matching rows, nothing matches any more. -/
theorem find?_filter_ne (k : Int) (l : List Task) :
    (l.filter (fun t => !(t.id == k))).find? (fun t => t.id == k) = none := by
  rw [List.find?_eq_none]
  intro x hx
  have hpx := (List.mem_filter.mp hx).2
  simp only [Bool.not_eq_true'] at hpx
  simp [hpx]

/-- Appending a row whose id is fresh for the list: looking that id up
finds exactly the appended row. -/
theorem find?_append_fresh (l : List Task) (t : Task) (k : Int)
    (hid : t.id = k) (hfresh : ∀ x ∈ l, x.id ≠ k) :
    (l ++ [t]).find? (fun x => x.id == k) = some t := by
  induction l with
  | nil =>
    have hb : (t.id == k) = true := by rw [hid]; exact beq_self_eq_true k
    simp only [List.nil_append, List.find?_cons, hb]
  | cons a l ih =>
    have ha : (a.id == k) = false := by
      simp only [beq_eq_false_iff_ne, ne_eq]
      exact hfresh a (List.mem_cons_self a l)
    simp only [List.cons_append, List.find?_cons, ha]
    exact ih (fun x hx => hfresh x (List.mem_cons_of_mem a hx))

/-- Creating a sequence of tasks with parseable due dates appends exactly
one row per task. -/
theorem createAll_rows_length (ps : List Task) (st : Store)
    (h : ∀ p ∈ ps, parseYYYYMMDD p.dueDate ≠ none) :
    (createAll st ps).rows.length = st.rows.length + ps.length := by
  induction ps generalizing st with
  | nil => simp [createAll]
  | cons p ps ih =>
    have hstep : createAll st (p :: ps) =
        createAll (createTask st p false).1 ps := rfl
    rw [hstep, ih _ (fun q hq => h q (List.mem_cons_of_mem p hq))]
    cases hpd : parseYYYYMMDD p.dueDate with
    | none => exact absurd hpd (h p (List.mem_cons_self p ps))
    | some v =>
      obtain ⟨y, md⟩ := v
      obtain ⟨m, d⟩ := md
      simp only [createTask, hpd, Bool.false_eq_true, if_false,
        List.length_append, List.length_cons, List.length_nil]
      omega

/-- The empty store of a fresh process is well-formed. -/
theorem WFStore_empty : WFStore emptyStore := by
  constructor
  · exact Int.zero_lt_one
  · intro t ht
    exact absurd ht (List.not_mem_nil t)

/-- Every handler that writes preserves store well-formedness: Create bumps
the counter past the id it assigns, Update keeps every id, Delete only
removes rows. -/
theorem WFStore_preserved (st : Store) (p : Task) (idStr : String) (b : Bool)
    (h : WFStore st) :
    WFStore (createTask st p b).1 ∧ WFStore (updateTask st idStr p b).1 ∧
      WFStore (deleteTask st idStr b).1 := by
  obtain ⟨hpos, hall⟩ := h
  refine ⟨?_, ?_, ?_⟩
  · cases hpd : parseYYYYMMDD p.dueDate with
    | none => simp only [createTask, hpd]; exact ⟨hpos, hall⟩
    | some v =>
      obtain ⟨y, md⟩ := v
      obtain ⟨m, d⟩ := md
      cases b with
      | true => simp only [createTask, hpd, if_true]; exact ⟨hpos, hall⟩
      | false =>
        simp only [createTask, hpd, Bool.false_eq_true, if_false]
        refine ⟨show (0 : Int) < st.nextId + 1 by omega, ?_⟩
        intro t ht
        show 0 < t.id ∧ t.id < st.nextId + 1
        rcases List.mem_append.mp ht with ht | ht
        · have h2 := hall t ht
          omega
        · rw [List.mem_singleton] at ht
          subst ht
          show 0 < st.nextId ∧ st.nextId < st.nextId + 1
          omega
  · have hupd : WFStore (execUpdate st idStr p) := by
      unfold execUpdate
      cases hk : keyOfString idStr with
      | none => exact ⟨hpos, hall⟩
      | some k =>
        refine ⟨hpos, ?_⟩
        intro t ht
        obtain ⟨t1, ht1, rfl⟩ := List.mem_map.mp ht
        by_cases hid : (t1.id == k) = true
        · rw [if_pos hid]
          exact hall t1 ht1
        · rw [if_neg hid]
          exact hall t1 ht1
    cases hft : findTask st idStr with
    | none => simp only [updateTask, hft]; exact ⟨hpos, hall⟩
    | some t1 =>
      cases b with
      | true => simp only [updateTask, hft, if_true]; exact ⟨hpos, hall⟩
      | false =>
        simp only [updateTask, hft, Bool.false_eq_true, if_false]
        cases hft2 : findTask (execUpdate st idStr p) idStr with
        | none => simp only [hft2]; exact hupd
        | some t2 => simp only [hft2]; exact hupd
  · cases b with
    | true => simp only [deleteTask, if_true]; exact ⟨hpos, hall⟩
    | false =>
      simp only [deleteTask, Bool.false_eq_true, if_false]
      cases hk : keyOfString idStr with
      | none =>
        split
        · exact ⟨hpos, hall⟩
        · exact ⟨hpos, hall⟩
      | some k =>
        have hflt : WFStore
            { st with rows := st.rows.filter (fun t => !(t.id == k)) } := by
          refine ⟨hpos, ?_⟩
          intro t ht
          exact hall t (List.mem_of_mem_filter ht)
        split
        · exact hflt
        · exact hflt

/-! ## Concrete data for counterexamples and witnesses -/

/-- A well-formed persisted task with id 1. -/
def sampleTask : Task :=
  { id := 1, title := "Buy milk", description := "2%",
    dueDate := "2025-03-10", status := "open" }

/-- A store holding one well-formed task (id 1), as after one successful
create on a fresh store. -/
def sampleStore : Store := { rows := [sampleTask], nextId := 2 }

/-- A payload whose due date is not a calendar date at all. -/
def badDatePayload : Task :=
  { id := 0, title := "Buy milk", description := "2%",
    dueDate := "not-a-date", status := "open" }

/-- The §8 example payload, with a valid date. -/
def validPayload : Task :=
  { id := 0, title := "Buy milk", description := "2%",
    dueDate := "2025-03-10", status := "open" }

/-- A second valid payload with different field values. -/
def validPayload2 : Task :=
  { id := 7, title := "Pay rent", description := "monthly",
    dueDate := "2026-01-31", status := "done" }

/-- The §8 invalid-date payload: month 13, day 40. -/
def invalidDatePayload : Task :=
  { id := 0, title := "t1", description := "", dueDate := "2024-13-40",
    status := "open" }

/-! ## The claims -/

/-- C1 (counterexample): the claim as stated fails on the code.
`sampleStore` satisfies the date invariant; updating its row with a payload
whose due_date is `"not-a-date"` is accepted (200, returning the written
row), and the store after the update violates the invariant — `updateTask`
writes `due_date` without any validation. -/
theorem C1_counterexample :
    DateInv sampleStore ∧
    (updateTask sampleStore "1" badDatePayload false).2 =
      Response.ok { badDatePayload with id := 1 } ∧
    ¬ DateInv (updateTask sampleStore "1" badDatePayload false).1 := by
  refine ⟨?_, by decide, ?_⟩
  · unfold DateInv
    decide
  · unfold DateInv
    decide

/-- C1 (amended): every row `createTask` writes has a valid canonical
due_date and Create preserves the invariant, but Update preserves it only
under the extra assumption that the update payload's due_date is itself
valid and canonical — the handler does not check this. -/
theorem C1_date_invariant (st : Store) (p : Task) (idStr : String) (b : Bool)
    (hinv : DateInv st) :
    DateInv (createTask st p b).1 ∧
    (validDueDate p.dueDate = true → DateInv (updateTask st idStr p b).1) := by
  constructor
  · cases hpd : parseYYYYMMDD p.dueDate with
    | none => simp only [createTask, hpd]; exact hinv
    | some v =>
      obtain ⟨y, md⟩ := v
      obtain ⟨m, d⟩ := md
      cases b with
      | true => simp only [createTask, hpd, if_true]; exact hinv
      | false =>
        simp only [createTask, hpd, Bool.false_eq_true, if_false]
        intro t ht
        rcases List.mem_append.mp ht with ht | ht
        · exact hinv t ht
        · rw [List.mem_singleton] at ht
          subst ht
          show validDueDate (formatYYYYMMDD y m d) = true
          rw [format_of_parse p.dueDate y m d hpd]
          exact validDueDate_of_parse p.dueDate y m d hpd
  · intro hv
    have hupd : DateInv (execUpdate st idStr p) := by
      unfold execUpdate
      cases hk : keyOfString idStr with
      | none => exact hinv
      | some k =>
        intro t ht
        obtain ⟨t1, ht1, rfl⟩ := List.mem_map.mp ht
        by_cases hid : (t1.id == k) = true
        · rw [if_pos hid]
          exact hv
        · rw [if_neg hid]
          exact hinv t1 ht1
    cases hft : findTask st idStr with
    | none => simp only [updateTask, hft]; exact hinv
    | some t1 =>
      cases b with
      | true => simp only [updateTask, hft, if_true]; exact hinv
      | false =>
        simp only [updateTask, hft, Bool.false_eq_true, if_false]
        cases hft2 : findTask (execUpdate st idStr p) idStr with
        | none => simp only [hft2]; exact hupd
        | some t2 => simp only [hft2]; exact hupd

/-- C1 witness: the amended theorem at the sample store with a valid update
payload. -/
theorem C1_witness :
    DateInv sampleStore ∧
    (DateInv (createTask sampleStore validPayload2 false).1 ∧
      (validDueDate validPayload2.dueDate = true →
        DateInv (updateTask sampleStore "1" validPayload2 false).1)) :=
  ⟨by unfold DateInv; decide,
   C1_date_invariant sampleStore validPayload2 "1" false
     (by unfold DateInv; decide)⟩

/-- C2 (counterexample): creating with due_date "2024-13-40" rejects the
request and leaves the store unchanged, but the message is
"Invalid due_date format" (capital I), not "invalid due_date format" as the
claim quotes it. -/
theorem C2_counterexample :
    createTask emptyStore invalidDatePayload false =
      (emptyStore, Response.badRequest "Invalid due_date format") ∧
    (createTask emptyStore invalidDatePayload false).2 ≠
      Response.badRequest "invalid due_date format" := by
  refine ⟨by decide, by decide⟩

/-- C2 (amended): every Create whose due_date does not parse as YYYY-MM-DD
yields the InvalidInput kind with message "Invalid due_date format", and the
store is unchanged (no row persisted) — the rejection precedes the insert. -/
theorem C2_invalid_date_rejected (st : Store) (p : Task) (b : Bool)
    (h : parseYYYYMMDD p.dueDate = none) :
    createTask st p b = (st, Response.badRequest "Invalid due_date format") ∧
    (createTask st p b).2.errorKind = some ErrorKind.InvalidInput := by
  have h1 : createTask st p b =
      (st, Response.badRequest "Invalid due_date format") := by
    unfold createTask
    rw [h]
  exact ⟨h1, by rw [h1]; rfl⟩

/-- C2 witness: the amended theorem at the empty store and the §8 invalid
payload. -/
theorem C2_witness :
    parseYYYYMMDD invalidDatePayload.dueDate = none ∧
    (createTask emptyStore invalidDatePayload false =
        (emptyStore, Response.badRequest "Invalid due_date format") ∧
      (createTask emptyStore invalidDatePayload false).2.errorKind =
        some ErrorKind.InvalidInput) :=
  ⟨by decide,
   C2_invalid_date_rejected emptyStore invalidDatePayload false (by decide)⟩

/-- C3: updating an id that matches no persisted row answers the NotFound
kind and performs no write: the store is returned unchanged, so no row is
created or modified. -/
theorem C3_update_missing (st : Store) (idStr : String) (p : Task) (b : Bool)
    (h : findTask st idStr = none) :
    updateTask st idStr p b = (st, Response.notFound "Task not found") ∧
    (updateTask st idStr p b).2.errorKind = some ErrorKind.NotFound := by
  have h1 : updateTask st idStr p b =
      (st, Response.notFound "Task not found") := by
    unfold updateTask
    rw [h]
  exact ⟨h1, by rw [h1]; rfl⟩

/-- C3 witness: updating id 99, absent from the sample store. -/
theorem C3_witness :
    findTask sampleStore "99" = none ∧
    (updateTask sampleStore "99" validPayload2 false =
        (sampleStore, Response.notFound "Task not found") ∧
      (updateTask sampleStore "99" validPayload2 false).2.errorKind =
        some ErrorKind.NotFound) :=
  ⟨by decide,
   C3_update_missing sampleStore "99" validPayload2 false (by decide)⟩

/-- C4: a Create with a valid YYYY-MM-DD due date answers 201 with exactly
the input title, description, due_date and status plus the freshly assigned
id `st.nextId` — positive and distinct from every persisted id — and the id
supplied in the payload has no influence on the result. -/
theorem C4_create_roundtrip (st : Store) (p : Task) (y m d : Nat) (j : Int)
    (hwf : WFStore st) (hp : parseYYYYMMDD p.dueDate = some (y, m, d)) :
    (createTask st p false).2 =
      Response.created { p with id := st.nextId } ∧
    0 < st.nextId ∧
    (∀ t ∈ st.rows, t.id ≠ st.nextId) ∧
    createTask st { p with id := j } false = createTask st p false := by
  refine ⟨?_, hwf.1, ?_, ?_⟩
  · simp only [createTask, hp, Bool.false_eq_true, if_false]
    rw [format_of_parse p.dueDate y m d hp]
  · intro t ht
    exact Int.ne_of_lt (hwf.2 t ht).2
  · have hp2 : parseYYYYMMDD ({ p with id := j } : Task).dueDate =
        some (y, m, d) := hp
    simp only [createTask, hp, hp2, Bool.false_eq_true, if_false]

/-- C4 witness: the §8 example — creating the "Buy milk" payload on a fresh
store assigns id 1 and echoes the other fields. -/
theorem C4_witness :
    WFStore emptyStore ∧
    parseYYYYMMDD validPayload.dueDate = some (2025, 3, 10) ∧
    ((createTask emptyStore validPayload false).2 =
        Response.created { validPayload with id := emptyStore.nextId } ∧
      0 < emptyStore.nextId ∧
      (∀ t ∈ emptyStore.rows, t.id ≠ emptyStore.nextId) ∧
      createTask emptyStore { validPayload with id := 99 } false =
        createTask emptyStore validPayload false) :=
  ⟨WFStore_empty, by decide,
   C4_create_roundtrip emptyStore validPayload 2025 3 10 99 WFStore_empty
     (by decide)⟩

/-- C5: updating an existing id overwrites all four mutable fields with the
payload's values while keeping the row's id, answers 200 with the row as
re-read after the write, and a subsequent Retrieve of the same id returns
exactly the new values under the unchanged id. -/
theorem C5_update_existing (st : Store) (idStr : String) (p : Task)
    (t0 : Task) (h : findTask st idStr = some t0) :
    updateTask st idStr p false =
      (execUpdate st idStr p, Response.ok { p with id := t0.id }) ∧
    findTask (execUpdate st idStr p) idStr = some { p with id := t0.id } ∧
    retrieveTask (updateTask st idStr p false).1 idStr =
      ((updateTask st idStr p false).1,
        Response.ok { p with id := t0.id }) := by
  have h2 := findTask_execUpdate st idStr p t0 h
  have hov : overwrite p t0 = { p with id := t0.id } := rfl
  have hu : updateTask st idStr p false =
      (execUpdate st idStr p, Response.ok { p with id := t0.id }) := by
    simp only [updateTask, h, Bool.false_eq_true, if_false, h2, hov]
  refine ⟨hu, by rw [h2, hov], ?_⟩
  rw [hu]
  unfold retrieveTask
  rw [h2, hov]

/-- C5 witness: overwriting the sample row with new values. -/
theorem C5_witness :
    findTask sampleStore "1" = some sampleTask ∧
    (updateTask sampleStore "1" validPayload2 false =
        (execUpdate sampleStore "1" validPayload2,
          Response.ok { validPayload2 with id := sampleTask.id }) ∧
      findTask (execUpdate sampleStore "1" validPayload2) "1" =
        some { validPayload2 with id := sampleTask.id } ∧
      retrieveTask (updateTask sampleStore "1" validPayload2 false).1 "1" =
        ((updateTask sampleStore "1" validPayload2 false).1,
          Response.ok { validPayload2 with id := sampleTask.id })) :=
  ⟨by decide,
   C5_update_existing sampleStore "1" validPayload2 sampleTask (by decide)⟩

/-- C6: listing an empty store answers the informational "No tasks found"
payload rather than an empty collection; listing a non-empty store answers
all persisted rows in store order; and creating N tasks on a fresh store
yields exactly N rows, which a subsequent ListAll then returns. -/
theorem C6_list_all (st : Store) (ps : List Task)
    (hne : st.rows ≠ [])
    (hps : ∀ p ∈ ps, parseYYYYMMDD p.dueDate ≠ none) :
    listAllTasks emptyStore false =
      (emptyStore, Response.message "No tasks found") ∧
    listAllTasks st false = (st, Response.okList st.rows) ∧
    (createAll emptyStore ps).rows.length = ps.length ∧
    (ps ≠ [] →
      listAllTasks (createAll emptyStore ps) false =
        (createAll emptyStore ps,
          Response.okList (createAll emptyStore ps).rows)) := by
  have hlen : (createAll emptyStore ps).rows.length = ps.length := by
    have hl := createAll_rows_length ps emptyStore hps
    simpa [emptyStore] using hl
  have hlist : ∀ st2 : Store, st2.rows ≠ [] →
      listAllTasks st2 false = (st2, Response.okList st2.rows) := by
    intro st2 hne2
    have hpos : st2.rows.length > 0 := List.length_pos.mpr hne2
    unfold listAllTasks
    rw [if_neg (by simp), if_pos hpos]
  refine ⟨rfl, hlist st hne, hlen, ?_⟩
  intro hps2
  apply hlist
  intro hnil
  apply hps2
  have h0 : (createAll emptyStore ps).rows.length = 0 := by rw [hnil]; rfl
  rw [hlen] at h0
  exact List.length_eq_zero.mp h0

/-- C6 witness: the sample store lists its row; one valid create on the
fresh store yields one row. -/
theorem C6_witness :
    sampleStore.rows ≠ [] ∧
    (∀ p ∈ [validPayload2], parseYYYYMMDD p.dueDate ≠ none) ∧
    (listAllTasks emptyStore false =
        (emptyStore, Response.message "No tasks found") ∧
      listAllTasks sampleStore false =
        (sampleStore, Response.okList sampleStore.rows) ∧
      (createAll emptyStore [validPayload2]).rows.length =
        [validPayload2].length ∧
      ([validPayload2] ≠ ([] : List Task) →
        listAllTasks (createAll emptyStore [validPayload2]) false =
          (createAll emptyStore [validPayload2],
            Response.okList (createAll emptyStore [validPayload2]).rows))) :=
  ⟨by decide, by decide,
   C6_list_all sampleStore [validPayload2] (by decide) (by decide)⟩

/-- C7: deleting an existing id removes the row — a subsequent Retrieve of
that id answers NotFound and deleting it a second time answers NotFound
too; deleting an id that matches no row affects zero rows and answers
NotFound with the store unchanged; a store error answers the StoreFailure
kind. -/
theorem C7_delete (st : Store) (idStr : String) (t0 : Task)
    (h : findTask st idStr = some t0) :
    (deleteTask st idStr false).2 =
      Response.message "Task deleted successfully" ∧
    retrieveTask (deleteTask st idStr false).1 idStr =
      ((deleteTask st idStr false).1, Response.notFound "Task not found") ∧
    deleteTask (deleteTask st idStr false).1 idStr false =
      ((deleteTask st idStr false).1, Response.notFound "Task not found") ∧
    (∀ st2 : Store, findTask st2 idStr = none →
      deleteTask st2 idStr false =
        (st2, Response.notFound "Task not found")) ∧
    (∀ st2 : Store,
      deleteTask st2 idStr true =
        (st2, Response.serverError "Failed to delete task") ∧
      (deleteTask st2 idStr true).2.errorKind =
        some ErrorKind.StoreFailure) := by
  obtain ⟨hk, hmem⟩ := findTask_key st idStr t0 h
  have hfind : st.rows.find? (fun t => t.id == t0.id) = some t0 := by
    unfold findTask at h
    simp only [hk] at h
    exact h
  have hcnt := countP_ne_zero_of_find? t0.id st.rows t0 hfind
  have hdel : deleteTask st idStr false =
      ({ st with rows := st.rows.filter (fun t => !(t.id == t0.id)) },
        Response.message "Task deleted successfully") := by
    unfold deleteTask
    rw [if_neg (by simp)]
    simp only [hk]
    rw [if_neg (by simpa using hcnt)]
  have hnone : findTask
      { st with rows := st.rows.filter (fun t => !(t.id == t0.id)) }
      idStr = none := by
    unfold findTask
    simp only [hk]
    exact find?_filter_ne t0.id st.rows
  have hretnone : ∀ st2 : Store, findTask st2 idStr = none →
      retrieveTask st2 idStr = (st2, Response.notFound "Task not found") := by
    intro st2 hn
    unfold retrieveTask
    rw [hn]
  have hdelnone : ∀ st2 : Store, findTask st2 idStr = none →
      deleteTask st2 idStr false =
        (st2, Response.notFound "Task not found") := by
    intro st2 hn
    unfold findTask at hn
    unfold deleteTask
    rw [if_neg (by simp)]
    cases hk2 : keyOfString idStr with
    | none => rfl
    | some k2 =>
      simp only [hk2] at hn
      simp only [hk2]
      rw [countP_of_no_match k2 st2.rows hn,
        filter_of_no_match k2 st2.rows hn]
      rfl
  refine ⟨by rw [hdel], ?_, ?_, hdelnone, ?_⟩
  · exact hretnone (deleteTask st idStr false).1 (by rw [hdel]; exact hnone)
  · exact hdelnone (deleteTask st idStr false).1 (by rw [hdel]; exact hnone)
  · intro st2
    exact ⟨rfl, rfl⟩

/-- C7 witness: deleting the sample row. -/
theorem C7_witness :
    findTask sampleStore "1" = some sampleTask ∧
    ((deleteTask sampleStore "1" false).2 =
        Response.message "Task deleted successfully" ∧
      retrieveTask (deleteTask sampleStore "1" false).1 "1" =
        ((deleteTask sampleStore "1" false).1,
          Response.notFound "Task not found") ∧
      deleteTask (deleteTask sampleStore "1" false).1 "1" false =
        ((deleteTask sampleStore "1" false).1,
          Response.notFound "Task not found") ∧
      (∀ st2 : Store, findTask st2 "1" = none →
        deleteTask st2 "1" false =
          (st2, Response.notFound "Task not found")) ∧
      (∀ st2 : Store,
        deleteTask st2 "1" true =
          (st2, Response.serverError "Failed to delete task") ∧
        (deleteTask st2 "1" true).2.errorKind =
          some ErrorKind.StoreFailure)) :=
  ⟨by decide, C7_delete sampleStore "1" sampleTask (by decide)⟩

/-- C8: Retrieve returns exactly the values last written — after a Create
it returns the created row under its fresh id, after an Update of an
existing row it returns the overwritten values under the unchanged id, and
an id matching no persisted row answers NotFound. -/
theorem C8_retrieve_last_written (st : Store) (p : Task)
    (idNew idOld : String) (y m d : Nat) (t0 : Task)
    (hwf : WFStore st) (hp : parseYYYYMMDD p.dueDate = some (y, m, d)) :
    (keyOfString idNew = some st.nextId →
      retrieveTask (createTask st p false).1 idNew =
        ((createTask st p false).1,
          Response.ok { p with id := st.nextId })) ∧
    (findTask st idOld = some t0 →
      retrieveTask (updateTask st idOld p false).1 idOld =
        ((updateTask st idOld p false).1,
          Response.ok { p with id := t0.id })) ∧
    (∀ st2 : Store, ∀ s : String, findTask st2 s = none →
      retrieveTask st2 s = (st2, Response.notFound "Task not found")) := by
  refine ⟨?_, ?_, ?_⟩
  · intro hkn
    have hst1 : (createTask st p false).1 =
        { rows := st.rows ++ [{ p with id := st.nextId }],
          nextId := st.nextId + 1 } := by
      simp only [createTask, hp, Bool.false_eq_true, if_false]
      rw [format_of_parse p.dueDate y m d hp]
    have hfind1 : findTask (createTask st p false).1 idNew =
        some { p with id := st.nextId } := by
      rw [hst1]
      unfold findTask
      simp only [hkn]
      exact find?_append_fresh st.rows _ st.nextId rfl
        (fun x hx => Int.ne_of_lt (hwf.2 x hx).2)
    unfold retrieveTask
    rw [hfind1]
  · intro ho
    have h2 := findTask_execUpdate st idOld p t0 ho
    have hov : overwrite p t0 = { p with id := t0.id } := rfl
    have hu1 : (updateTask st idOld p false).1 = execUpdate st idOld p := by
      simp only [updateTask, ho, Bool.false_eq_true, if_false, h2]
    rw [hu1]
    unfold retrieveTask
    rw [h2, hov]
  · intro st2 s hn
    unfold retrieveTask
    rw [hn]

/-- C8 witness: creating on the sample store and retrieving id 2; updating
id 1 and retrieving it. -/
theorem C8_witness :
    WFStore sampleStore ∧
    parseYYYYMMDD validPayload2.dueDate = some (2026, 1, 31) ∧
    ((keyOfString "2" = some sampleStore.nextId →
      retrieveTask (createTask sampleStore validPayload2 false).1 "2" =
        ((createTask sampleStore validPayload2 false).1,
          Response.ok { validPayload2 with id := sampleStore.nextId })) ∧
    (findTask sampleStore "1" = some sampleTask →
      retrieveTask (updateTask sampleStore "1" validPayload2 false).1 "1" =
        ((updateTask sampleStore "1" validPayload2 false).1,
          Response.ok { validPayload2 with id := sampleTask.id })) ∧
    (∀ st2 : Store, ∀ s : String, findTask st2 s = none →
      retrieveTask st2 s = (st2, Response.notFound "Task not found"))) :=
  ⟨by unfold WFStore; decide, by decide,
   C8_retrieve_last_written sampleStore validPayload2 "2" "1" 2026 1 31
     sampleTask (by unfold WFStore; decide) (by decide)⟩

/-- C9 (counterexample): the claim as stated fails on the code.  The id
string "1.0" is not a well-formed integer key, yet the store's numeric
affinity coerces it to the number 1: on a store holding id 1, Retrieve
answers 200 with the task and Delete removes the row and answers the
success message — neither yields NotFound. -/
theorem C9_counterexample :
    retrieveTask sampleStore "1.0" = (sampleStore, Response.ok sampleTask) ∧
    deleteTask sampleStore "1.0" false =
      ({ rows := [], nextId := 2 },
        Response.message "Task deleted successfully") ∧
    (retrieveTask sampleStore "1.0").2 ≠
      Response.notFound "Task not found" ∧
    (deleteTask sampleStore "1.0" false).2 ≠
      Response.notFound "Task not found" := by
  refine ⟨by decide, by decide, by decide, by decide⟩

/-- C9 (amended): no handler validates the id path parameter — the raw
string goes to the store, which applies numeric affinity to it; for every
id string the store cannot coerce to a number equal to an integer key
(in particular every string that is not a well-formed numeric literal), no
row matches, so Retrieve and Delete answer NotFound (never InvalidInput)
and leave the store unchanged. -/
theorem C9_unvalidated_id (st : Store) (idStr : String)
    (h : keyOfString idStr = none) :
    retrieveTask st idStr = (st, Response.notFound "Task not found") ∧
    deleteTask st idStr false = (st, Response.notFound "Task not found") ∧
    (retrieveTask st idStr).2.errorKind ≠ some ErrorKind.InvalidInput ∧
    (deleteTask st idStr false).2.errorKind ≠
      some ErrorKind.InvalidInput := by
  have hf : findTask st idStr = none := by
    unfold findTask
    rw [h]
  have h1 : retrieveTask st idStr =
      (st, Response.notFound "Task not found") := by
    unfold retrieveTask
    rw [hf]
  have h2 : deleteTask st idStr false =
      (st, Response.notFound "Task not found") := by
    unfold deleteTask
    rw [if_neg (by simp), h]
    rfl
  refine ⟨h1, h2, ?_, ?_⟩
  · rw [h1]
    simp [Response.errorKind]
  · rw [h2]
    simp [Response.errorKind]

/-- C9 witness: the non-numeric id "abc". -/
theorem C9_witness :
    keyOfString "abc" = none ∧
    (retrieveTask sampleStore "abc" =
        (sampleStore, Response.notFound "Task not found") ∧
      deleteTask sampleStore "abc" false =
        (sampleStore, Response.notFound "Task not found") ∧
      (retrieveTask sampleStore "abc").2.errorKind ≠
        some ErrorKind.InvalidInput ∧
      (deleteTask sampleStore "abc" false).2.errorKind ≠
        some ErrorKind.InvalidInput) :=
  ⟨by decide, C9_unvalidated_id sampleStore "abc" (by decide)⟩

/-- C10: Retrieve and ListAll are read-only — for every store state and
every input, the store they return is exactly the store they were given. -/
theorem C10_reads_pure (st : Store) (idStr : String) (b : Bool) :
    (retrieveTask st idStr).1 = st ∧ (listAllTasks st b).1 = st := by
  constructor
  · unfold retrieveTask
    cases hft : findTask st idStr <;> rfl
  · unfold listAllTasks
    cases b with
    | true => rfl
    | false =>
      by_cases hl : st.rows.length > 0
      · rw [if_neg (by simp), if_pos hl]
      · rw [if_neg (by simp), if_neg hl]

end TaskApi
